import Mathlib

/-!
Shallow embedding of the `promptis` crate (`src/lib.rs`), a builder-pattern
helper for reading and validating typed input from a terminal.

Modelling decisions:
* `Input` mirrors the Rust struct field for field.
* One terminal interaction (`get_data`) consumes a `ReadStep`, which records
  whether the `stdout().flush()` call failed (`flushErr`) and whether
  `stdin().read_line` failed or yielded a line (`readRes`).  A failed
  `read_line` leaves the buffer empty, exactly as in the Rust code.
* Everything printed is collected as a list of `OutEvent` (`write` models
  `print!`, `writeLn` models `println!`).
* `std::process::exit(0)` is modelled by the `exit` constructors of
  `GetRes` / `RunRes`: reaching them means the process terminated with
  success status 0.
* The unbounded loops (`wait`'s retry loop runs until input is exhausted;
  the outer loops of `wait_opts` and `choose` take a fuel parameter).
  `outOfInput` marks exhaustion of input or fuel, never a value produced by
  the program.
* Rust generic parsing (`T: FromStr`) is a parameter
  `parse : String → Option α` applied to the trimmed buffer, matching
  `buffer.trim().parse().ok()`.  `usize` parsing (used by `wait_opts`) and
  `char` parsing (used by `choose`) are embedded concretely below.
-/

namespace Promptis

/-- Whitespace test used by trimming (the ASCII part of Rust's
`char::is_whitespace`, which covers every character the claims exercise). -/
def isWS (c : Char) : Bool :=
  c == ' ' || c == '\t' || c == '\n' || c == '\r'

/-- `str::trim` on the character list: drop leading and trailing whitespace. -/
def trimL (l : List Char) : List Char :=
  ((l.dropWhile isWS).reverse.dropWhile isWS).reverse

/-- `str::trim` on strings. -/
def trimS (s : String) : String :=
  ⟨trimL s.data⟩

/-- The `Input` struct: prompt text, optional quit phrase, optional error
message (fields `user_prompt`, `user_quit`, `user_errmsg`). -/
structure Input where
  user_prompt : String
  user_quit : Option String
  user_errmsg : Option String
  deriving DecidableEq, Repr

/-- `Input::new` — all fields default. -/
def Input.new : Input := ⟨"", none, none⟩

/-- `Input::prompt` — sets the prompt text. -/
def Input.prompt (i : Input) (p : String) : Input :=
  { i with user_prompt := p }

/-- `Input::quit` — sets the quit trigger phrase. -/
def Input.quit (i : Input) (q : String) : Input :=
  { i with user_quit := some q }

/-- `Input::err_msg` — sets the parse-failure error message. -/
def Input.err_msg (i : Input) (m : String) : Input :=
  { i with user_errmsg := some m }

/-- One printed event: `write` is `print!` (no newline), `writeLn` is
`println!`. -/
inductive OutEvent where
  | write (s : String)
  | writeLn (s : String)
  deriving DecidableEq, Repr

/-- The line printed by `handle_io` when an I/O operation fails:
`"IO Error: {e}; Continuing..."`. -/
def ioErrorLine (e : String) : String :=
  "IO Error: " ++ e ++ "; Continuing..."

/-- `Input::handle_io`: if the operation failed (`some e`) print the
diagnostic and continue; otherwise print nothing. -/
def handle_io (r : Option String) : List OutEvent :=
  match r with
  | some e => [OutEvent.writeLn (ioErrorLine e)]
  | none => []

/-- The `std::io::Result` of the `read_line` call: a line, or an error. -/
inductive LineRes where
  | ok (l : String)
  | err (e : String)
  deriving DecidableEq, Repr

/-- The I/O outcome of one `get_data` call: did `stdout().flush()` fail,
and did `stdin().read_line` fail or yield a line? -/
structure ReadStep where
  flushErr : Option String
  readRes : LineRes
  deriving DecidableEq, Repr

/-- A step with no I/O failure delivering the line `l`. -/
def cleanStep (l : String) : ReadStep :=
  ⟨none, LineRes.ok l⟩

/-- The error of the `read_line` call, if any. -/
def ReadStep.readErr (st : ReadStep) : Option String :=
  match st.readRes with
  | LineRes.ok _ => none
  | LineRes.err e => some e

/-- The buffer contents after `read_line`: the line on success, empty on
read failure (the Rust buffer starts empty and an erroring `read_line`
leaves it so). -/
def bufferOf (st : ReadStep) : String :=
  match st.readRes with
  | LineRes.ok l => l
  | LineRes.err _ => ""

/-- `Input::check_quit`: true exactly when the quit trigger is set and
equals the trimmed message; the Rust code then calls
`std::process::exit(0)`. -/
def Input.check_quit (i : Input) (message : String) : Bool :=
  match i.user_quit with
  | some trigger => trigger = trimS message
  | none => false

/-- What one failed attempt prints inside `check_error`: the configured
error message, when set. -/
def errOut (i : Input) : List OutEvent :=
  match i.user_errmsg with
  | some msg => [OutEvent.writeLn msg]
  | none => []

/-- `Input::check_error`: when `response` is `none`, print the error
message if one is configured. -/
def Input.check_error (i : Input) (response : Option α) : List OutEvent :=
  match response with
  | none => errOut i
  | some _ => []

/-- Result of one `get_data` call: the process exited via the quit trigger,
or parsing produced `o : Option α`. -/
inductive GetRes (α : Type) where
  | exit
  | got (o : Option α)
  deriving DecidableEq, Repr

/-- Everything `get_data` prints before the quit check: the prompt
(`print!`, no newline) and any I/O diagnostics from flushing and reading. -/
def stepOut (i : Input) (st : ReadStep) : List OutEvent :=
  OutEvent.write i.user_prompt :: (handle_io st.flushErr ++ handle_io st.readErr)

/-- `Input::get_data`: print the prompt, flush (diagnostic on failure),
read a line (diagnostic on failure, empty buffer), check the quit trigger
(exiting on match, before any parse), else parse the trimmed buffer. -/
def Input.get_data (i : Input) (parse : String → Option α) (st : ReadStep) :
    List OutEvent × GetRes α :=
  (stepOut i st,
    if i.check_quit (bufferOf st) then GetRes.exit
    else GetRes.got (parse (trimS (bufferOf st))))

/-- Result of a (possibly looping) read operation: process exit via quit,
a returned value, or exhaustion of the modelled input/fuel. -/
inductive RunRes (α : Type) where
  | exit
  | value (v : α)
  | outOfInput
  deriving DecidableEq, Repr

/-- `Input::wait`: loop `get_data`/`check_error` until a parse succeeds.
Returns the printed events, the outcome, and the unconsumed input steps. -/
def Input.wait (i : Input) (parse : String → Option α) :
    List ReadStep → List OutEvent × RunRes α × List ReadStep
  | [] => ([], RunRes.outOfInput, [])
  | st :: rest =>
    match i.get_data parse st with
    | (o, GetRes.exit) => (o, RunRes.exit, rest)
    | (o, GetRes.got (some v)) =>
      (o ++ i.check_error (some v), RunRes.value v, rest)
    | (o, GetRes.got none) =>
      let w := i.wait parse rest
      (o ++ i.check_error (none : Option α) ++ w.1, w.2.1, w.2.2)

/-- `Input::read`: a single `get_data` call. -/
def Input.read (i : Input) (parse : String → Option α) (st : ReadStep) :
    List OutEvent × GetRes α :=
  i.get_data parse st

/-- `usize::MAX` on the 64-bit targets the crate is built for. -/
def usizeMax : Nat := 2 ^ 64 - 1

/-- Accumulate decimal digits; any non-digit character fails. -/
def digitsValAux : List Char → Nat → Option Nat
  | [], acc => some acc
  | c :: t, acc =>
    if c.isDigit then digitsValAux t (acc * 10 + (c.toNat - 48)) else none

/-- `usize::from_str`: an optional leading `+`, then one or more decimal
digits, rejecting the empty string and values above `usize::MAX`. -/
def parseUsize (s : String) : Option Nat :=
  let cs := match s.data with
    | '+' :: rest => rest
    | other => other
  match cs with
  | [] => none
  | c :: t =>
    match digitsValAux (c :: t) 0 with
    | some n => if n ≤ usizeMax then some n else none
    | none => none

/-- `char::from_str`: succeeds exactly on one-character strings. -/
def parseChar (s : String) : Option Char :=
  match s.data with
  | [c] => some c
  | _ => none

/-- `char::to_ascii_uppercase`. -/
def toAsciiUpper (c : Char) : Char :=
  if 'a' ≤ c ∧ c ≤ 'z' then Char.ofNat (c.toNat - 32) else c

/-- The numbered option list printed by `wait_opts`, starting at index
`k` (the Rust `for (i, v) in opts.iter().enumerate()` prints
`"{i + 1}. {v}"`, so the whole listing is `optsHeaderFrom shw 0 opts`). -/
def optsHeaderFrom (shw : α → String) : Nat → List α → List OutEvent
  | _, [] => []
  | k, v :: t =>
    OutEvent.writeLn (toString (k + 1) ++ ". " ++ shw v) :: optsHeaderFrom shw (k + 1) t

/-- The full numbered option listing. -/
def optsHeader (shw : α → String) (opts : List α) : List OutEvent :=
  optsHeaderFrom shw 0 opts

/-- The out-of-range diagnostic
`"Please enter a number within the bounds {:?}"` applied to `1..=n`
(whose `Debug` form is `1..=n`). -/
def boundsMsg (n : Nat) : String :=
  "Please enter a number within the bounds 1..=" ++ toString n

/-- The `loop` body of `Input::wait_opts`, with the cloned `Input` (`ic`)
threaded through because `ic.prompt(p)` mutates the clone.  Each iteration
prints the numbered options, reads a `usize` via `wait`, returns
`opts[result - 1]` when `(1..=opts.len()).contains(&result)`, and
otherwise prints the bounds diagnostic and loops. -/
def waitOptsLoop (shw : α → String) (opts : List α) (p : String) :
    Nat → Input → List ReadStep → List OutEvent × RunRes α × List ReadStep × Input
  | 0, ic, steps => ([], RunRes.outOfInput, steps, ic)
  | fuel + 1, ic, steps =>
    let header := optsHeader shw opts
    let ic2 := ic.prompt p
    let w := ic2.wait parseUsize steps
    match w.2.1 with
    | RunRes.exit => (header ++ w.1, RunRes.exit, w.2.2, ic2)
    | RunRes.outOfInput => (header ++ w.1, RunRes.outOfInput, w.2.2, ic2)
    | RunRes.value n =>
      if h : 1 ≤ n ∧ n ≤ opts.length then
        (header ++ w.1, RunRes.value (opts.get ⟨n - 1, by omega⟩), w.2.2, ic2)
      else
        let r := waitOptsLoop shw opts p fuel ic2 w.2.2
        (header ++ w.1 ++ [OutEvent.writeLn (boundsMsg opts.length)] ++ r.1,
          r.2.1, r.2.2.1, r.2.2.2)

/-- `Input::wait_opts`: runs the loop on a private clone of the receiver
(`let mut ic = self.clone()`), so the caller's `Input` — returned as the
last component, the receiver being borrowed immutably — is unchanged. -/
def Input.wait_opts (i : Input) (shw : α → String) (opts : List α) (p : String)
    (fuel : Nat) (steps : List ReadStep) :
    List OutEvent × RunRes α × List ReadStep × Input :=
  let r := waitOptsLoop shw opts p fuel i steps
  (r.1, r.2.1, r.2.2.1, i)

/-- `Input::choose`: loop reading a `char` through a fresh clone with
prompt `"{p} [y/n] "`; `Y` returns true, `N` returns false, anything else
loops silently. -/
def Input.choose (i : Input) (p : String) :
    Nat → List ReadStep → List OutEvent × RunRes Bool × List ReadStep
  | 0, steps => ([], RunRes.outOfInput, steps)
  | fuel + 1, steps =>
    let ic := i.prompt (p ++ " [y/n] ")
    let w := ic.wait parseChar steps
    match w.2.1 with
    | RunRes.exit => (w.1, RunRes.exit, w.2.2)
    | RunRes.outOfInput => (w.1, RunRes.outOfInput, w.2.2)
    | RunRes.value c =>
      if toAsciiUpper c = 'Y' then (w.1, RunRes.value true, w.2.2)
      else if toAsciiUpper c = 'N' then (w.1, RunRes.value false, w.2.2)
      else
        let r := i.choose p fuel w.2.2
        (w.1 ++ r.1, r.2.1, r.2.2)

/-! ### Basic unfolding lemmas -/

theorem check_quit_prompt (i : Input) (p m : String) :
    (i.prompt p).check_quit m = i.check_quit m := rfl

theorem prompt_user_prompt (i : Input) (p : String) :
    (i.prompt p).user_prompt = p := rfl

theorem errOut_prompt (i : Input) (p : String) :
    errOut (i.prompt p) = errOut i := rfl

theorem bufferOf_clean (l : String) : bufferOf (cleanStep l) = l := rfl

theorem stepOut_clean (i : Input) (l : String) :
    stepOut i (cleanStep l) = [OutEvent.write i.user_prompt] := rfl

theorem wait_nil (i : Input) (parse : String → Option α) :
    i.wait parse [] = ([], RunRes.outOfInput, []) := rfl

/-- One `wait` step on a clean line matching the quit trigger: the prompt
is printed and the process exits, whatever the parser is. -/
theorem wait_clean_quit (i : Input) (parse : String → Option α) (l : String)
    (rest : List ReadStep) (hq : i.check_quit l = true) :
    i.wait parse (cleanStep l :: rest)
      = ([OutEvent.write i.user_prompt], RunRes.exit, rest) := by
  simp [Input.wait, Input.get_data, stepOut_clean, bufferOf_clean, hq]

/-- One `wait` step on a clean line that parses: the prompt is printed,
the parsed value is returned, nothing else is printed. -/
theorem wait_clean_some (i : Input) (parse : String → Option α) (l : String) (v : α)
    (rest : List ReadStep) (hq : i.check_quit l = false) (hp : parse (trimS l) = some v) :
    i.wait parse (cleanStep l :: rest)
      = ([OutEvent.write i.user_prompt], RunRes.value v, rest) := by
  simp [Input.wait, Input.get_data, stepOut_clean, bufferOf_clean, hq, hp,
    Input.check_error]

/-- One `wait` step on a clean line that fails to parse: the prompt is
printed, the configured error message (if any) is printed, and the loop
continues on the remaining input. -/
theorem wait_clean_none (i : Input) (parse : String → Option α) (l : String)
    (rest : List ReadStep) (hq : i.check_quit l = false) (hp : parse (trimS l) = none) :
    i.wait parse (cleanStep l :: rest)
      = (OutEvent.write i.user_prompt :: (errOut i ++ (i.wait parse rest).1),
         (i.wait parse rest).2.1, (i.wait parse rest).2.2) := by
  simp [Input.wait, Input.get_data, stepOut_clean, bufferOf_clean, hq, hp,
    Input.check_error]

/-! ### C1 -/

/-- C1: for every configured quit sentinel `q`, every target type and every
read variant (`read`, `wait`, `wait_opts`, `choose`), a trimmed input line
equal to `q` makes the process exit with status 0 (`exit`), on the first
attempt, with only the prompt output emitted — independently of the parser
(so before any parse attempt) and with no error-message output. -/
theorem quit_sentinel_exits (i : Input) (q l : String)
    (hq : i.user_quit = some q) (ht : trimS l = q) :
    (∀ (α : Type) (parse : String → Option α),
        i.read parse (cleanStep l) = ([OutEvent.write i.user_prompt], GetRes.exit)) ∧
    (∀ (α : Type) (parse : String → Option α) (rest : List ReadStep),
        i.wait parse (cleanStep l :: rest)
          = ([OutEvent.write i.user_prompt], RunRes.exit, rest)) ∧
    (∀ (α : Type) (shw : α → String) (opts : List α) (p : String) (fuel : Nat)
        (rest : List ReadStep),
        i.wait_opts shw opts p (fuel + 1) (cleanStep l :: rest)
          = (optsHeader shw opts ++ [OutEvent.write p], RunRes.exit, rest, i)) ∧
    (∀ (p : String) (fuel : Nat) (rest : List ReadStep),
        i.choose p (fuel + 1) (cleanStep l :: rest)
          = ([OutEvent.write (p ++ " [y/n] ")], RunRes.exit, rest)) := by
  have hcq : i.check_quit l = true := by
    simp [Input.check_quit, hq, ht]
  refine ⟨?_, ?_, ?_, ?_⟩
  · intro α parse
    simp [Input.read, Input.get_data, stepOut_clean, bufferOf_clean, hcq]
  · intro α parse rest
    exact wait_clean_quit i parse l rest hcq
  · intro α shw opts p fuel rest
    have h2 : (i.prompt p).check_quit l = true := hcq
    simp [Input.wait_opts, waitOptsLoop,
      wait_clean_quit (i.prompt p) parseUsize l rest h2, prompt_user_prompt]
  · intro p fuel rest
    have h2 : (i.prompt (p ++ " [y/n] ")).check_quit l = true := hcq
    simp [Input.choose,
      wait_clean_quit (i.prompt (p ++ " [y/n] ")) parseChar l rest h2,
      prompt_user_prompt]

/-- C1 witness: the sentinel `"q"` with input line `" q "` (which trims to
`"q"`) exits `read` immediately. -/
theorem quit_sentinel_exits_witness :
    (Input.new.quit "q").user_quit = some "q" ∧ trimS " q " = "q" ∧
      (Input.new.quit "q").read (fun _ => (none : Option Nat)) (cleanStep " q ")
        = ([OutEvent.write ""], GetRes.exit) :=
  ⟨rfl, by decide,
    (quit_sentinel_exits (Input.new.quit "q") "q" " q " rfl (by decide)).1 Nat
      (fun _ => none)⟩

/-! ### C2 -/

/-- C2: when the input holds earlier lines that all fail to parse (and none
matches the quit trigger) followed by a line parsing to `v`, `wait` returns
`v` — never an absence indicator — and after each failed line prints
exactly the configured error message (`errOut` is that message when set and
nothing otherwise). -/
theorem wait_returns_first_valid {α : Type} (i : Input) (parse : String → Option α)
    (pre : List String) (l : String) (v : α) (post : List ReadStep)
    (hpre : ∀ m ∈ pre, parse (trimS m) = none ∧ i.check_quit m = false)
    (hl : parse (trimS l) = some v) (hq : i.check_quit l = false) :
    i.wait parse (pre.map cleanStep ++ cleanStep l :: post)
      = ((pre.map fun _ => OutEvent.write i.user_prompt :: errOut i).flatten
          ++ [OutEvent.write i.user_prompt], RunRes.value v, post) := by
  induction pre with
  | nil => simpa using wait_clean_some i parse l v post hq hl
  | cons m t ih =>
    have hm := hpre m (by simp)
    have hrec := ih fun x hx => hpre x (by simp [hx])
    simp only [List.map_cons, List.cons_append]
    rw [wait_clean_none i parse m _ hm.2 hm.1]
    simp [hrec]

/-- C2 witness: with error message `"bad"`, input `"x"` then `"5"` (then an
unread `"7"`), `wait` prints the prompt, `"bad"`, the prompt again, and
returns 5 leaving `"7"` unconsumed. -/
theorem wait_returns_first_valid_witness :
    (∀ m ∈ ["x"], parseUsize (trimS m) = none ∧
        (Input.new.err_msg "bad").check_quit m = false) ∧
    parseUsize (trimS "5") = some 5 ∧
    (Input.new.err_msg "bad").check_quit "5" = false ∧
    (Input.new.err_msg "bad").wait parseUsize
        (["x"].map cleanStep ++ cleanStep "5" :: [cleanStep "7"])
      = ((["x"].map fun _ =>
            OutEvent.write (Input.new.err_msg "bad").user_prompt
              :: errOut (Input.new.err_msg "bad")).flatten
          ++ [OutEvent.write (Input.new.err_msg "bad").user_prompt],
         RunRes.value 5, [cleanStep "7"]) :=
  ⟨by decide, by decide, by decide,
    wait_returns_first_valid (Input.new.err_msg "bad") parseUsize ["x"] "5" 5
      [cleanStep "7"] (by decide) (by decide) (by decide)⟩

/-! ### C9 -/

/-- With no quit trigger configured, `wait` can never report a process
exit. -/
theorem wait_no_exit_of_no_quit {α : Type} (i : Input) (parse : String → Option α)
    (hq : i.user_quit = none) :
    ∀ steps : List ReadStep, (i.wait parse steps).2.1 ≠ RunRes.exit := by
  intro steps
  induction steps with
  | nil => simp [Input.wait]
  | cons st rest ih =>
    have hcq : i.check_quit (bufferOf st) = false := by simp [Input.check_quit, hq]
    cases hp : parse (trimS (bufferOf st)) with
    | none =>
      simp only [Input.wait, Input.get_data, hcq, if_false, hp]
      exact ih
    | some v =>
      simp [Input.wait, Input.get_data, hcq, hp]

/-- The `wait_opts` loop over an empty options list never produces a
value, with any fuel, starting from any clone state. -/
theorem waitOptsLoop_empty_no_value {α : Type} (shw : α → String) (p : String) :
    ∀ (fuel : Nat) (ic : Input) (steps : List ReadStep) (v : α),
      (waitOptsLoop shw ([] : List α) p fuel ic steps).2.1 ≠ RunRes.value v := by
  intro fuel
  induction fuel with
  | zero => intro ic steps v; simp [waitOptsLoop]
  | succ f ih =>
    intro ic steps v
    simp only [waitOptsLoop]
    cases hr : ((ic.prompt p).wait parseUsize steps).2.1 with
    | exit => simp [hr]
    | outOfInput => simp [hr]
    | value n =>
      have hg : ¬ (1 ≤ n ∧ n ≤ ([] : List α).length) := by simp; omega
      simp only [hr, hg, dite_false, dif_neg hg]
      exact ih _ _ v

/-- The `wait_opts` loop over an empty options list, with no quit trigger,
always ends in input/fuel exhaustion. -/
theorem waitOptsLoop_empty_no_quit {α : Type} (shw : α → String) (p : String) :
    ∀ (fuel : Nat) (ic : Input), ic.user_quit = none → ∀ steps : List ReadStep,
      (waitOptsLoop shw ([] : List α) p fuel ic steps).2.1 = RunRes.outOfInput := by
  intro fuel
  induction fuel with
  | zero => intro ic hq steps; simp [waitOptsLoop]
  | succ f ih =>
    intro ic hq steps
    have hq2 : (ic.prompt p).user_quit = none := hq
    simp only [waitOptsLoop]
    cases hr : ((ic.prompt p).wait parseUsize steps).2.1 with
    | exit => exact absurd hr (wait_no_exit_of_no_quit (ic.prompt p) parseUsize hq2 steps)
    | outOfInput => simp [hr]
    | value n =>
      have hg : ¬ (1 ≤ n ∧ n ≤ ([] : List α).length) := by simp; omega
      simp only [hr, dif_neg hg]
      exact ih (ic.prompt p) hq2 _

/-- C9: on the empty options list, `wait_opts` never returns a value: the
acceptance condition `1 ≤ n ∧ n ≤ 0` holds for no integer, so with no quit
trigger the loop only ever exhausts its input, and whenever a line parses
as an integer `n` the out-of-range diagnostic (with bounds `1..=0`) is
printed and the loop continues. -/
theorem wait_opts_empty_never_returns {α : Type} (shw : α → String) (i : Input)
    (p : String) (fuel : Nat) (steps : List ReadStep) :
    (∀ v : α, (i.wait_opts shw ([] : List α) p fuel steps).2.1 ≠ RunRes.value v) ∧
    (i.user_quit = none →
      (i.wait_opts shw ([] : List α) p fuel steps).2.1 = RunRes.outOfInput) ∧
    (∀ (o : List OutEvent) (n : Nat) (rem : List ReadStep) (f : Nat),
        fuel = f + 1 →
        (i.prompt p).wait parseUsize steps = (o, RunRes.value n, rem) →
        OutEvent.writeLn (boundsMsg 0)
          ∈ (i.wait_opts shw ([] : List α) p fuel steps).1) := by
  refine ⟨fun v => waitOptsLoop_empty_no_value shw p fuel i steps v,
    fun hq => waitOptsLoop_empty_no_quit shw p fuel i hq steps, ?_⟩
  intro o n rem f hf hw
  subst hf
  simp [Input.wait_opts, waitOptsLoop, hw, optsHeader, optsHeaderFrom]
  rw [dif_neg (by omega : ¬ (1 ≤ n ∧ n = 0))]
  simp

/-- C9 witness: one line `"7"` parses as an integer; with fuel 1 the
empty-options loop prints the `1..=0` bounds diagnostic and produces no
value. -/
theorem wait_opts_empty_never_returns_witness :
    (Input.new.prompt "c").wait parseUsize [cleanStep "7"]
        = ([OutEvent.write "c"], RunRes.value 7, []) ∧
    Input.new.user_quit = none ∧
    (Input.new.wait_opts (fun s => s) ([] : List String) "c" 1 [cleanStep "7"]).2.1
        = RunRes.outOfInput ∧
    OutEvent.writeLn (boundsMsg 0)
      ∈ (Input.new.wait_opts (fun s => s) ([] : List String) "c" 1 [cleanStep "7"]).1 :=
  ⟨by decide, rfl,
    (wait_opts_empty_never_returns (fun s => s) Input.new "c" 1 [cleanStep "7"]).2.1 rfl,
    (wait_opts_empty_never_returns (fun s => s) Input.new "c" 1 [cleanStep "7"]).2.2
      [OutEvent.write "c"] 7 [] 0 rfl (by decide)⟩

/-! ### C3 -/

theorem optsHeaderFrom_length {α : Type} (shw : α → String) :
    ∀ (t : List α) (k : Nat), (optsHeaderFrom shw k t).length = t.length := by
  intro t
  induction t with
  | nil => intro k; rfl
  | cons v r ih => intro k; simp [optsHeaderFrom, ih]

theorem optsHeaderFrom_getElem {α : Type} (shw : α → String) :
    ∀ (t : List α) (k j : Nat) (hj : j < t.length),
      (optsHeaderFrom shw k t)[j]?
        = some (OutEvent.writeLn (toString (k + j + 1) ++ ". " ++ shw t[j])) := by
  intro t
  induction t with
  | nil => intro k j hj; simp at hj
  | cons v r ih =>
    intro k j hj
    cases j with
    | zero => simp [optsHeaderFrom]
    | succ j2 =>
      have hj2 : j2 < r.length := by simpa using hj
      have harith : k + 1 + j2 + 1 = k + (j2 + 1) + 1 := by omega
      simp only [optsHeaderFrom, List.getElem?_cons_succ, List.getElem_cons_succ]
      rw [ih (k + 1) j2 hj2, harith]

/-- C3: for a non-empty options list and an entered line parsing to the
integer `n`: `wait_opts` prints the options as a 1-based numbered list in
order in the format `"{index}. {item}"`; when `1 ≤ n ≤ count(opts)` it
returns `opts[n - 1]` (a clone — the model's value copy); when `n` is out
of that range it prints the bounds diagnostic naming `1..=count(opts)` and
loops; and the caller's own configuration is returned untouched (last
component `i`) because only a private clone is mutated. -/
theorem wait_opts_selects {α : Type} (shw : α → String) (opts : List α)
    (hne : opts ≠ []) (i : Input) (p l : String) (fuel : Nat)
    (rest : List ReadStep) (n : Nat)
    (hq : i.check_quit l = false) (hp : parseUsize (trimS l) = some n) :
    ((optsHeader shw opts).length = opts.length ∧
      ∀ (j : Nat) (hj : j < opts.length),
        (optsHeader shw opts)[j]?
          = some (OutEvent.writeLn (toString (j + 1) ++ ". " ++ shw opts[j]))) ∧
    (∀ (hb : n - 1 < opts.length), 1 ≤ n → n ≤ opts.length →
        i.wait_opts shw opts p (fuel + 1) (cleanStep l :: rest)
          = (optsHeader shw opts ++ [OutEvent.write p],
             RunRes.value opts[n - 1], rest, i)) ∧
    (¬ (1 ≤ n ∧ n ≤ opts.length) →
        i.wait_opts shw opts p (fuel + 1) (cleanStep l :: rest)
          = (optsHeader shw opts ++ [OutEvent.write p]
                ++ OutEvent.writeLn (boundsMsg opts.length)
                  :: (waitOptsLoop shw opts p fuel (i.prompt p) rest).1,
             (waitOptsLoop shw opts p fuel (i.prompt p) rest).2.1,
             (waitOptsLoop shw opts p fuel (i.prompt p) rest).2.2.1, i)) := by
  have h2 : (i.prompt p).check_quit l = false := hq
  have hw := wait_clean_some (i.prompt p) parseUsize l n rest h2 hp
  refine ⟨⟨optsHeaderFrom_length shw opts 0, ?_⟩, ?_, ?_⟩
  · intro j hj
    simpa using optsHeaderFrom_getElem shw opts 0 j hj
  · intro hb h1 hn
    have hg : 1 ≤ n ∧ n ≤ opts.length := ⟨h1, hn⟩
    simp [Input.wait_opts, waitOptsLoop, hw, prompt_user_prompt, dif_pos hg]
  · intro hg
    simp [Input.wait_opts, waitOptsLoop, hw, prompt_user_prompt, dif_neg hg]

/-- C3 witness: options `["Yes", "No"]` with input `"1"` yield `"Yes"`. -/
theorem wait_opts_selects_witness :
    (["Yes", "No"] ≠ ([] : List String) ∧ Input.new.check_quit "1" = false ∧
      parseUsize (trimS "1") = some 1) ∧
    Input.new.wait_opts (fun s => s) ["Yes", "No"] "c: " 1 [cleanStep "1"]
      = (optsHeader (fun s => s) ["Yes", "No"] ++ [OutEvent.write "c: "],
         RunRes.value "Yes", [], Input.new) :=
  ⟨⟨by decide, by decide, by decide⟩,
    (wait_opts_selects (fun s => s) ["Yes", "No"] (by decide) Input.new "c: " "1" 0
        [] 1 (by decide) (by decide)).2.1 (by decide) (by decide) (by decide)⟩

/-! ### C10 -/

theorem head?_dropWhile_not (p : Char → Bool) :
    ∀ (l : List Char) (c : Char), (l.dropWhile p).head? = some c → p c = false := by
  intro l
  induction l with
  | nil => intro c h; simp [List.dropWhile] at h
  | cons a t ih =>
    intro c h
    by_cases hp : p a
    · rw [List.dropWhile_cons, if_pos hp] at h
      exact ih c h
    · rw [List.dropWhile_cons, if_neg hp] at h
      simp only [List.head?_cons, Option.some.injEq] at h
      subst h
      simpa using hp

theorem getLast?_dropWhile (p : Char → Bool) :
    ∀ l : List Char, l.dropWhile p ≠ [] → (l.dropWhile p).getLast? = l.getLast? := by
  intro l
  induction l with
  | nil => intro h; simp [List.dropWhile] at h
  | cons a t ih =>
    intro h
    by_cases hp : p a
    · rw [List.dropWhile_cons, if_pos hp] at h ⊢
      rw [ih h]
      have ht : t ≠ [] := by
        intro he
        rw [he] at h
        simp [List.dropWhile] at h
      cases t with
      | nil => exact absurd rfl ht
      | cons b r => rw [List.getLast?_cons_cons]
    · rw [List.dropWhile_cons, if_neg hp]

/-- The head of a trimmed character list is never whitespace. -/
theorem trimL_head_not_WS (l : List Char) (c : Char)
    (h : (trimL l).head? = some c) : isWS c = false := by
  unfold trimL at h
  rw [List.head?_reverse] at h
  by_cases hB : ((l.dropWhile isWS).reverse).dropWhile isWS = []
  · rw [hB] at h
    simp at h
  · rw [getLast?_dropWhile isWS _ hB, List.getLast?_reverse] at h
    exact head?_dropWhile_not isWS l c h

/-- The last element of a trimmed character list is never whitespace. -/
theorem trimL_getLast_not_WS (l : List Char) (c : Char)
    (h : (trimL l).getLast? = some c) : isWS c = false := by
  unfold trimL at h
  rw [List.getLast?_reverse] at h
  exact head?_dropWhile_not isWS _ c h

/-- C10: the quit check fires exactly when the sentinel is set and equals
the trimmed input line; consequently a sentinel that itself starts or ends
with whitespace can never fire — no input line makes `check_quit` true and
`read` can never exit for such a configuration. -/
theorem quit_check_trimmed (i : Input) :
    (∀ l : String, i.check_quit l = true ↔ i.user_quit = some (trimS l)) ∧
    (∀ q : String, i.user_quit = some q →
      ((∃ c, q.data.head? = some c ∧ isWS c = true) ∨
        (∃ c, q.data.getLast? = some c ∧ isWS c = true)) →
      (∀ l : String, i.check_quit l = false) ∧
      (∀ (α : Type) (parse : String → Option α) (st : ReadStep),
          (i.read parse st).2 ≠ GetRes.exit)) := by
  constructor
  · intro l
    cases hq : i.user_quit with
    | none => simp [Input.check_quit, hq]
    | some t => simp [Input.check_quit, hq]
  · intro q hq hws
    have hfalse : ∀ l : String, i.check_quit l = false := by
      intro l
      have hne : q ≠ trimS l := by
        intro he
        have hdata : q.data = trimL l.data := by rw [he]; rfl
        rcases hws with ⟨c, hc, hw⟩ | ⟨c, hc, hw⟩
        · have hf : isWS c = false := by
            refine trimL_head_not_WS l.data c ?_
            rw [← hdata]
            exact hc
          rw [hw] at hf
          exact Bool.noConfusion hf
        · have hf : isWS c = false := by
            refine trimL_getLast_not_WS l.data c ?_
            rw [← hdata]
            exact hc
          rw [hw] at hf
          exact Bool.noConfusion hf
      simp [Input.check_quit, hq, hne]
    refine ⟨hfalse, ?_⟩
    intro α parse st
    simp [Input.read, Input.get_data, hfalse (bufferOf st)]

/-- C10 witness: the sentinel `" q"` (leading space) never fires, even on
the input `" q "`, and `read` does not exit. -/
theorem quit_check_trimmed_witness :
    (Input.new.quit " q").check_quit " q " = false ∧
    ((Input.new.quit " q").read (fun s => some s) (cleanStep " q")).2
      ≠ GetRes.exit :=
  have h := (quit_check_trimmed (Input.new.quit " q")).2 " q" rfl
    (Or.inl ⟨' ', by decide, by decide⟩)
  ⟨h.1 " q ", h.2 String (fun s => some s) (cleanStep " q")⟩

/-! ### C4 -/

/-- C4 counterexample: with error message `"invalid"` configured, input
`"maybe"` (which fails to parse as one character) makes `choose` print
that error message before re-prompting — the re-prompt is not silent. -/
theorem choose_parse_failure_not_silent :
    (Input.new.err_msg "invalid").choose "Continue?" 2
        [cleanStep "maybe", cleanStep "y"]
      = ([OutEvent.write "Continue? [y/n] ", OutEvent.writeLn "invalid",
          OutEvent.write "Continue? [y/n] "], RunRes.value true, []) ∧
    OutEvent.writeLn "invalid"
      ∈ ((Input.new.err_msg "invalid").choose "Continue?" 2
          [cleanStep "maybe", cleanStep "y"]).1 := by
  decide

/-- C4 amended: `choose` prompts with `"{p} [y/n] "`; a line parsing to a
single character returns true on `y`/`Y` and false on `n`/`N`, and any
other single character re-prompts silently (no error message, whatever the
configuration); but a line that fails to parse as exactly one character is
retried inside `wait`, which prints the configured error message when one
is set. -/
theorem choose_behavior (i : Input) (p l : String) (fuel : Nat)
    (rest : List ReadStep) (hq : i.check_quit l = false) :
    (∀ c, parseChar (trimS l) = some c → toAsciiUpper c = 'Y' →
        i.choose p (fuel + 1) (cleanStep l :: rest)
          = ([OutEvent.write (p ++ " [y/n] ")], RunRes.value true, rest)) ∧
    (∀ c, parseChar (trimS l) = some c → toAsciiUpper c = 'N' →
        i.choose p (fuel + 1) (cleanStep l :: rest)
          = ([OutEvent.write (p ++ " [y/n] ")], RunRes.value false, rest)) ∧
    (∀ c, parseChar (trimS l) = some c → toAsciiUpper c ≠ 'Y' →
        toAsciiUpper c ≠ 'N' →
        i.choose p (fuel + 1) (cleanStep l :: rest)
          = (OutEvent.write (p ++ " [y/n] ") :: (i.choose p fuel rest).1,
             (i.choose p fuel rest).2.1, (i.choose p fuel rest).2.2)) ∧
    (parseChar (trimS l) = none →
        i.choose p (fuel + 1) (cleanStep l :: rest)
          = (OutEvent.write (p ++ " [y/n] ")
              :: (errOut i ++ (i.choose p (fuel + 1) rest).1),
             (i.choose p (fuel + 1) rest).2.1,
             (i.choose p (fuel + 1) rest).2.2)) := by
  have h2 : (i.prompt (p ++ " [y/n] ")).check_quit l = false := hq
  refine ⟨?_, ?_, ?_, ?_⟩
  · intro c hpc hy
    have hw := wait_clean_some (i.prompt (p ++ " [y/n] ")) parseChar l c rest h2 hpc
    simp [Input.choose, hw, prompt_user_prompt, hy]
  · intro c hpc hn
    have hw := wait_clean_some (i.prompt (p ++ " [y/n] ")) parseChar l c rest h2 hpc
    by_cases hy : toAsciiUpper c = 'Y'
    · rw [hy] at hn
      exact absurd hn (by decide)
    · simp [Input.choose, hw, prompt_user_prompt, hy, hn]
  · intro c hpc hy hn
    have hw := wait_clean_some (i.prompt (p ++ " [y/n] ")) parseChar l c rest h2 hpc
    simp [Input.choose, hw, prompt_user_prompt, hy, hn]
  · intro hp
    have hw := wait_clean_none (i.prompt (p ++ " [y/n] ")) parseChar l rest h2 hp
    simp only [Input.choose, hw, prompt_user_prompt, errOut_prompt]
    cases hr : ((i.prompt (p ++ " [y/n] ")).wait parseChar rest).2.1 with
    | exit => simp [hr]
    | outOfInput => simp [hr]
    | value c =>
      by_cases hy : toAsciiUpper c = 'Y'
      · simp [hr, hy]
      · by_cases hn : toAsciiUpper c = 'N'
        · simp [hr, hy, hn]
        · simp [hr, hy, hn]

/-- C4 witness: input `"y"` confirms. -/
theorem choose_behavior_witness :
    (Input.new.check_quit "y" = false ∧ parseChar (trimS "y") = some 'y' ∧
      toAsciiUpper 'y' = 'Y') ∧
    Input.new.choose "Continue?" 1 [cleanStep "y"]
      = ([OutEvent.write "Continue? [y/n] "], RunRes.value true, []) :=
  ⟨⟨by decide, by decide, by decide⟩,
    (choose_behavior Input.new "Continue?" "y" 0 [] (by decide)).1 'y'
      (by decide) (by decide)⟩

/-! ### C5 -/

/-- C5 counterexample: with quit sentinel `"5"` configured, the line `"5"`
parses to 5 yet `read` exits the process instead of returning the parsed
value. -/
theorem read_quit_preempts_return :
    parseUsize (trimS "5") = some 5 ∧
    (Input.new.quit "5").read parseUsize (cleanStep "5")
      = ([OutEvent.write ""], GetRes.exit) ∧
    (Input.new.quit "5").read parseUsize (cleanStep "5")
      ≠ ([OutEvent.write ""], GetRes.got (some 5)) := by
  decide

/-- C5 amended: provided the trimmed line does not match a configured quit
sentinel, `read` performs exactly one read-and-parse attempt, returning the
parsed value when the trimmed line parses and `none` otherwise, printing
only the prompt; and the configured error message has no effect whatsoever
on `read` (on any step, clean or not). -/
theorem read_single_shot {α : Type} (i : Input) (parse : String → Option α) :
    (∀ l : String, i.check_quit l = false →
        i.read parse (cleanStep l)
          = ([OutEvent.write i.user_prompt], GetRes.got (parse (trimS l)))) ∧
    (∀ (e : Option String) (st : ReadStep),
        ({ i with user_errmsg := e }).read parse st = i.read parse st) := by
  constructor
  · intro l hq
    simp [Input.read, Input.get_data, stepOut_clean, bufferOf_clean, hq]
  · intro e st
    rfl

/-- C5 witness: `"42"` parses and is returned; the error message is inert. -/
theorem read_single_shot_witness :
    Input.new.check_quit "42" = false ∧
    Input.new.read parseUsize (cleanStep "42")
      = ([OutEvent.write ""], GetRes.got (some 42)) ∧
    ({ Input.new with user_errmsg := some "bad" }).read parseUsize (cleanStep "zzz")
      = Input.new.read parseUsize (cleanStep "zzz") :=
  ⟨by decide, (read_single_shot Input.new parseUsize).1 "42" (by decide),
    (read_single_shot Input.new parseUsize).2 (some "bad") (cleanStep "zzz")⟩

/-! ### C6 -/

/-- C6 counterexample: with no error message configured, the non-numeric
line `"Yes"` produces no diagnostic at all — the full output is the option
list and the two prompts, nothing else. -/
theorem wait_opts_no_diagnostic_without_errmsg :
    Input.new.wait_opts (fun s => s) ["Yes", "No"] "c: " 1
        [cleanStep "Yes", cleanStep "1"]
      = ([OutEvent.writeLn "1. Yes", OutEvent.writeLn "2. No",
          OutEvent.write "c: ", OutEvent.write "c: "],
         RunRes.value "Yes", [], Input.new) := by
  decide

/-- C6 amended: in `wait_opts`, a line that does not parse as an integer
causes exactly the configured error message to be printed after the
re-displayed prompt (and nothing when no error message is set), after
which the run continues exactly as it would have without that line. -/
theorem wait_opts_parse_failure {α : Type} (shw : α → String) (opts : List α)
    (i : Input) (p l : String) (fuel : Nat) (rest : List ReadStep)
    (hq : i.check_quit l = false) (hp : parseUsize (trimS l) = none) :
    ∃ (tail : List OutEvent) (res : RunRes α) (rem : List ReadStep),
      i.wait_opts shw opts p (fuel + 1) rest
        = (optsHeader shw opts ++ tail, res, rem, i) ∧
      i.wait_opts shw opts p (fuel + 1) (cleanStep l :: rest)
        = (optsHeader shw opts ++ OutEvent.write p :: (errOut i ++ tail),
           res, rem, i) := by
  have h2 : (i.prompt p).check_quit l = false := hq
  have hw := wait_clean_none (i.prompt p) parseUsize l rest h2 hp
  simp only [Input.wait_opts, waitOptsLoop, hw, prompt_user_prompt, errOut_prompt]
  cases hr : ((i.prompt p).wait parseUsize rest).2.1 with
  | exit =>
    exact ⟨((i.prompt p).wait parseUsize rest).1, RunRes.exit,
      ((i.prompt p).wait parseUsize rest).2.2, by simp [hr], by simp [hr]⟩
  | outOfInput =>
    exact ⟨((i.prompt p).wait parseUsize rest).1, RunRes.outOfInput,
      ((i.prompt p).wait parseUsize rest).2.2, by simp [hr], by simp [hr]⟩
  | value n =>
    by_cases hg : 1 ≤ n ∧ n ≤ opts.length
    · exact ⟨((i.prompt p).wait parseUsize rest).1,
        RunRes.value (opts.get ⟨n - 1, by omega⟩),
        ((i.prompt p).wait parseUsize rest).2.2,
        by simp [hr, dif_pos hg], by simp [hr, dif_pos hg]⟩
    · refine ⟨((i.prompt p).wait parseUsize rest).1
          ++ OutEvent.writeLn (boundsMsg opts.length)
            :: (waitOptsLoop shw opts p fuel (i.prompt p)
                ((i.prompt p).wait parseUsize rest).2.2).1,
        (waitOptsLoop shw opts p fuel (i.prompt p)
            ((i.prompt p).wait parseUsize rest).2.2).2.1,
        (waitOptsLoop shw opts p fuel (i.prompt p)
            ((i.prompt p).wait parseUsize rest).2.2).2.2.1,
        by simp [hr, dif_neg hg], by simp [hr, dif_neg hg]⟩

/-- C6 witness: with error message `"bad"`, input `"Yes"` then `"1"`. -/
theorem wait_opts_parse_failure_witness :
    ((Input.new.err_msg "bad").check_quit "Yes" = false ∧
      parseUsize (trimS "Yes") = none) ∧
    (∃ (tail : List OutEvent) (res : RunRes String) (rem : List ReadStep),
      (Input.new.err_msg "bad").wait_opts (fun s => s) ["Yes", "No"] "c: " 1
          [cleanStep "1"]
        = (optsHeader (fun s => s) ["Yes", "No"] ++ tail, res, rem,
           Input.new.err_msg "bad") ∧
      (Input.new.err_msg "bad").wait_opts (fun s => s) ["Yes", "No"] "c: " 1
          (cleanStep "Yes" :: [cleanStep "1"])
        = (optsHeader (fun s => s) ["Yes", "No"]
            ++ OutEvent.write "c: " :: (errOut (Input.new.err_msg "bad") ++ tail),
           res, rem, Input.new.err_msg "bad")) :=
  ⟨⟨by decide, by decide⟩,
    wait_opts_parse_failure (fun s => s) ["Yes", "No"] (Input.new.err_msg "bad")
      "c: " "Yes" 0 [cleanStep "1"] (by decide) (by decide)⟩

/-! ### C7 -/

/-- C7 counterexample: a failed flush with a successful read of `"42"` is
not treated as an empty line — the actual line is parsed and returned,
unlike the empty-line run. -/
theorem flush_failure_keeps_line :
    Input.new.read parseUsize ⟨some "boom", LineRes.ok "42"⟩
      = ([OutEvent.write "", OutEvent.writeLn (ioErrorLine "boom")],
         GetRes.got (some 42)) ∧
    Input.new.read parseUsize (cleanStep "")
      = ([OutEvent.write ""], GetRes.got none) ∧
    (Input.new.read parseUsize ⟨some "boom", LineRes.ok "42"⟩).2
      ≠ (Input.new.read parseUsize (cleanStep "")).2 := by
  decide

/-- C7 amended: I/O failures are printed as diagnostics and never abort
the operation: a failed `read_line` behaves exactly like reading an empty
line plus the diagnostic; a failed flush only adds a diagnostic, the line
still being read and used normally; and in `wait` a read failure (when the
empty buffer neither quits nor parses) is retried on the next iteration. -/
theorem io_failure_degraded {α : Type} (i : Input) (parse : String → Option α) :
    (∀ (fe : Option String) (e : String),
        i.read parse ⟨fe, LineRes.err e⟩
          = ((i.read parse ⟨fe, LineRes.ok ""⟩).1
              ++ [OutEvent.writeLn (ioErrorLine e)],
             (i.read parse ⟨fe, LineRes.ok ""⟩).2)) ∧
    (∀ (e : String) (rr : LineRes),
        i.read parse ⟨some e, rr⟩
          = (OutEvent.write i.user_prompt
              :: OutEvent.writeLn (ioErrorLine e)
              :: (i.read parse ⟨none, rr⟩).1.tail,
             (i.read parse ⟨none, rr⟩).2)) ∧
    (∀ (fe : Option String) (e : String) (rest : List ReadStep),
        i.check_quit "" = false → parse (trimS "") = none →
        i.wait parse (⟨fe, LineRes.err e⟩ :: rest)
          = (stepOut i ⟨fe, LineRes.err e⟩ ++ errOut i ++ (i.wait parse rest).1,
             (i.wait parse rest).2.1, (i.wait parse rest).2.2)) := by
  refine ⟨?_, ?_, ?_⟩
  · intro fe e
    simp [Input.read, Input.get_data, stepOut, bufferOf, handle_io, ReadStep.readErr]
  · intro e rr
    simp [Input.read, Input.get_data, stepOut, bufferOf, handle_io, ReadStep.readErr]
  · intro fe e rest hq hp
    have hb : bufferOf ⟨fe, LineRes.err e⟩ = "" := rfl
    simp [Input.wait, Input.get_data, hb, hq, hp, Input.check_error]

/-- C7 witness: a read failure inside `wait` prints the flush-less
diagnostic and the error message, then retries and returns the next
line's value. -/
theorem io_failure_degraded_witness :
    ((Input.new.err_msg "bad").check_quit "" = false ∧
      parseUsize (trimS "") = none) ∧
    (Input.new.err_msg "bad").wait parseUsize
        (⟨none, LineRes.err "boom"⟩ :: [cleanStep "3"])
      = (stepOut (Input.new.err_msg "bad") ⟨none, LineRes.err "boom"⟩
          ++ errOut (Input.new.err_msg "bad")
          ++ ((Input.new.err_msg "bad").wait parseUsize [cleanStep "3"]).1,
         ((Input.new.err_msg "bad").wait parseUsize [cleanStep "3"]).2.1,
         ((Input.new.err_msg "bad").wait parseUsize [cleanStep "3"]).2.2) :=
  ⟨⟨by decide, by decide⟩,
    (io_failure_degraded (Input.new.err_msg "bad") parseUsize).2.2 none "boom"
      [cleanStep "3"] (by decide) (by decide)⟩

/-! ### C8 -/

/-- C8: a freshly constructed `Input` equals one configured with empty
prompt text, hence every read operation behaves identically (same output,
same result, same exit behaviour) on the two. -/
theorem new_prompt_empty_id :
    (Input.new.prompt "" = Input.new) ∧
    (∀ (α : Type) (parse : String → Option α) (st : ReadStep),
        (Input.new.prompt "").read parse st = Input.new.read parse st) ∧
    (∀ (α : Type) (parse : String → Option α) (steps : List ReadStep),
        (Input.new.prompt "").wait parse steps = Input.new.wait parse steps) ∧
    (∀ (α : Type) (shw : α → String) (opts : List α) (p : String) (fuel : Nat)
        (steps : List ReadStep),
        (Input.new.prompt "").wait_opts shw opts p fuel steps
          = Input.new.wait_opts shw opts p fuel steps) ∧
    (∀ (p : String) (fuel : Nat) (steps : List ReadStep),
        (Input.new.prompt "").choose p fuel steps
          = Input.new.choose p fuel steps) := by
  have h : Input.new.prompt "" = Input.new := rfl
  exact ⟨h, fun α parse st => by rw [h], fun α parse steps => by rw [h],
    fun α shw opts p fuel steps => by rw [h], fun p fuel steps => by rw [h]⟩

end Promptis
